import Mathlib

/-!
# Wt::Form::Dbo::FormView

A shallow embedding of `src/Wt/Form/Dbo/FormView.h`.

The class is an adapter: everything it does is either a change of its two
private members (`model_`, `formDelegates_`) or a call to a collaborator
(the `WTemplateFormView` base class, the form model, a form delegate, a
signal, one of the two virtual customisation hooks).  The embedding keeps
the two members as they are and records the collaborator calls that the
member functions make, in program order and with their arguments and
results, in a log.  What a collaborator returns is not decided by this file,
so it is supplied by a `Framework` record of functions of the log so far
(the history of the session) and of the call's arguments.

Conventions:

* Pointers are handles.  A `std::shared_ptr` or raw pointer that the code
  tests for null is an `Option`.
* The delegate map is a function from keys to optional delegates; two maps
  are equal when they hold the same entries, as for `std::map`.
* A collaborator call returns normally.  What a collaborator calls in turn
  (the base class `updateView` visiting the fields, a slot connected to a
  signal) is its own business and is not recorded; neither are the
  constructions of `C dummy` and of the `ViewAction` object.
* The transfer overloads are virtual; the embedding is that of an object
  whose dynamic type is `FormView<C>`, with the two customisation hooks
  recorded as calls.
* Dereferencing a null `model_` or `model` has no defined behaviour and ends
  the run.
-/

namespace Wt.Form.Dbo

/-- The type `Wt::WFormModel::Field`, used as key of the delegate map through `std::string`. -/
abbrev Field := String

/-- Handle of a `FormModel<C>` (also seen through its base `WFormModel`). -/
structure FormModel where
  id : Nat
deriving DecidableEq, Repr

/-- Handle of a `Wt::Form::WAbstractFormDelegate`. -/
structure WAbstractFormDelegate where
  id : Nat
deriving DecidableEq, Repr

/-- Handle of a `Wt::WWidget` (a `WFormWidget` is one, seen through `static_cast`). -/
structure WWidget where
  id : Nat
deriving DecidableEq, Repr

/-- Handle of a `Wt::WValidator`. -/
structure WValidator where
  id : Nat
deriving DecidableEq, Repr

/-- The member type `std::map<std::string, std::shared_ptr<WAbstractFormDelegate>>`.
The only store in `FormView.h` is in the non-null branch of `setFormDelegate`,
so an entry holds a delegate. -/
abbrev DelegateMap := Field → Option WAbstractFormDelegate

namespace DelegateMap

/-- The map a fresh view holds. -/
def empty : DelegateMap := fun _ => none

/-- The call `formDelegates_.find(field)`: `none` stands for `end()`. -/
def find (m : DelegateMap) (field : Field) : Option WAbstractFormDelegate := m field

/-- The call `formDelegates_.erase(it)` for the iterator found at `field`. -/
def erase (m : DelegateMap) (field : Field) : DelegateMap :=
  fun k => if k = field then none else m k

/-- The statement `formDelegates_[field] = std::move(delegate)`. -/
def assign (m : DelegateMap) (field : Field) (d : WAbstractFormDelegate) : DelegateMap :=
  fun k => if k = field then some d else m k

end DelegateMap

/-- One call from `FormView` to a collaborator, with its arguments and, where the
code uses it, its result. -/
inductive Event where
  /-- The base constructor `Wt::WTemplateFormView(text)`. -/
  | baseConstructor (text : String)
  /-- The call `model->session()`. -/
  | session (m : FormModel)
  /-- The call `dummy.persist(action)`. -/
  | persist (m : FormModel)
  /-- The call `model->fields()`. -/
  | fields (m : FormModel)
  /-- The call `d->createFormWidget()` and the widget it returned. -/
  | createFormWidget (d : WAbstractFormDelegate) (w : Option WWidget)
  /-- The virtual hook `customizeFormWidget(field, widget.get())`. -/
  | customizeFormWidget (field : Field) (w : Option WWidget)
  /-- The base-class call `setFormWidget(f, widget)`. -/
  | setFormWidget (field : Field) (w : Option WWidget)
  /-- The call `d->createValidator()` and the validator it returned. -/
  | createValidator (d : WAbstractFormDelegate) (val : Option WValidator)
  /-- The virtual hook `customizeValidator(field, validator.get())`. -/
  | customizeValidator (field : Field) (val : Option WValidator)
  /-- The call `model->setValidator(f, validator)`. -/
  | setValidator (m : FormModel) (field : Field) (val : Option WValidator)
  /-- The base-class call `updateView(model)`. -/
  | updateView (m : FormModel)
  /-- The base-class call `updateModel(model)`. -/
  | updateModel (m : FormModel)
  /-- The call `model_->validate()` and its result. -/
  | validate (m : FormModel) (valid : Bool)
  /-- The call `model_->saveDboValues()`. -/
  | saveDboValues (m : FormModel)
  /-- The emission `saved().emit()`. -/
  | savedEmit
  /-- The emission `validationFailed().emit()`. -/
  | validationFailedEmit
  /-- The call `d->updateModelValue(model, field, WWidget*)` and its result. -/
  | delegateUpdateModelValue_WWidget (d : WAbstractFormDelegate) (m : FormModel)
      (field : Field) (edit : WWidget) (handled : Bool)
  /-- The call `d->updateModelValue(model, field, WFormWidget*)`. -/
  | delegateUpdateModelValue_WFormWidget (d : WAbstractFormDelegate) (m : FormModel)
      (field : Field) (edit : WWidget)
  /-- The call `Wt::WTemplateFormView::updateModelValue(model, field, WWidget*)` and its result. -/
  | baseUpdateModelValue_WWidget (m : FormModel) (field : Field) (edit : WWidget)
      (handled : Bool)
  /-- The call `Wt::WTemplateFormView::updateModelValue(model, field, WFormWidget*)`. -/
  | baseUpdateModelValue_WFormWidget (m : FormModel) (field : Field) (edit : WWidget)
  /-- The call `d->updateViewValue(model, field, WWidget*)` and its result. -/
  | delegateUpdateViewValue_WWidget (d : WAbstractFormDelegate) (m : FormModel)
      (field : Field) (edit : WWidget) (handled : Bool)
  /-- The call `d->updateViewValue(model, field, WFormWidget*)`. -/
  | delegateUpdateViewValue_WFormWidget (d : WAbstractFormDelegate) (m : FormModel)
      (field : Field) (edit : WWidget)
  /-- The call `Wt::WTemplateFormView::updateViewValue(model, field, WWidget*)` and its result. -/
  | baseUpdateViewValue_WWidget (m : FormModel) (field : Field) (edit : WWidget)
      (handled : Bool)
  /-- The call `Wt::WTemplateFormView::updateViewValue(model, field, WFormWidget*)`. -/
  | baseUpdateViewValue_WFormWidget (m : FormModel) (field : Field) (edit : WWidget)
deriving DecidableEq, Repr

/-- What the collaborators answer.  Each answer may depend on everything that
happened before the call (the log) and on the call's arguments. -/
structure Framework where
  /-- The delegate map after `dummy.persist(action)`; the action holds a
  reference to `formDelegates_`. -/
  persist : List Event → FormModel → DelegateMap → DelegateMap
  /-- The field list `model->fields()`. -/
  fields : List Event → FormModel → List Field
  /-- The widget `d->createFormWidget()`. -/
  createFormWidget : List Event → WAbstractFormDelegate → Option WWidget
  /-- The validator `d->createValidator()`. -/
  createValidator : List Event → WAbstractFormDelegate → Option WValidator
  /-- The result of `model_->validate()`. -/
  validate : List Event → FormModel → Bool
  /-- The result of `d->updateModelValue(model, field, WWidget*)`. -/
  delegateUpdateModelValue :
    List Event → WAbstractFormDelegate → FormModel → Field → WWidget → Bool
  /-- The result of `WTemplateFormView::updateModelValue(model, field, WWidget*)`. -/
  baseUpdateModelValue : List Event → FormModel → Field → WWidget → Bool
  /-- The result of `d->updateViewValue(model, field, WWidget*)`. -/
  delegateUpdateViewValue :
    List Event → WAbstractFormDelegate → FormModel → Field → WWidget → Bool
  /-- The result of `WTemplateFormView::updateViewValue(model, field, WWidget*)`. -/
  baseUpdateViewValue : List Event → FormModel → Field → WWidget → Bool

/-- The object state: the two data members of `FormView<C>` and the log of the
collaborator calls made so far. -/
structure FormView where
  model_ : Option FormModel
  formDelegates_ : DelegateMap
  log : List Event

/-- The exception text of `setFormDelegate`. -/
def orderingMessage : String :=
  "Form Delegates cannot be set after the model has been initialized!"

/-- How a member function ends: it returns, it throws a `Wt::WException`
(the object lives on), or it dereferences a null pointer, to which C++ gives
no meaning. -/
inductive Result (α : Type) where
  | ok (val : α) (view : FormView)
  | threw (what : String) (view : FormView)
  | undefined

/-- The object after the call, when there is one. -/
def Result.view? {α : Type} : Result α → Option FormView
  | .ok _ v => some v
  | .threw _ v => some v
  | .undefined => none

namespace FormView

/-- Appends one collaborator call to the log. -/
def record (v : FormView) (e : Event) : FormView :=
  { v with log := v.log ++ [e] }

/-- The constructor `FormView(const Wt::WString& text)`. -/
def new (text : String) : FormView :=
  { model_ := none, formDelegates_ := DelegateMap.empty, log := [Event.baseConstructor text] }

/-- The private member `delegate(field)`. -/
def delegate (v : FormView) (field : Field) : Option WAbstractFormDelegate :=
  match v.formDelegates_.find field with
  | some d => some d
  | none => none

/-- The private member `formWidget(field)`. -/
def formWidget (fw : Framework) (v : FormView) (field : Field) :
    Option WWidget × FormView :=
  match v.delegate field with
  | some d =>
    let widget := fw.createFormWidget v.log d
    let v1 := v.record (Event.createFormWidget d widget)
    let v2 := v1.record (Event.customizeFormWidget field widget)
    (widget, v2)
  | none => (none, v)

/-- The private member `validator(field)`. -/
def validator (fw : Framework) (v : FormView) (field : Field) :
    Option WValidator × FormView :=
  match v.delegate field with
  | some d =>
    let val := fw.createValidator v.log d
    let v1 := v.record (Event.createValidator d val)
    let v2 := v1.record (Event.customizeValidator field val)
    (val, v2)
  | none => (none, v)

/-- The body of the loop of `setFormModel` for one field `f`. -/
def installField (fw : Framework) (m : FormModel) (v : FormView) (f : Field) : FormView :=
  let r1 := v.formWidget fw f
  let v1 := r1.2.record (Event.setFormWidget f r1.1)
  let r2 := v1.validator fw f
  r2.2.record (Event.setValidator m f r2.1)

/-- The member `setFormModel(model)`. -/
def setFormModel (fw : Framework) (v : FormView) (model : Option FormModel) : Result Unit :=
  match model with
  | none => Result.undefined
  | some m =>
    let v1 := { v with model_ := some m }
    let v2 := v1.record (Event.session m)
    let v3 := { v2 with formDelegates_ := fw.persist v2.log m v2.formDelegates_ }
    let v4 := v3.record (Event.persist m)
    let fs := fw.fields v4.log m
    let v5 := v4.record (Event.fields m)
    let v6 := fs.foldl (installField fw m) v5
    Result.ok () (v6.record (Event.updateView m))

/-- The member `setFormDelegate(field, delegate)`. -/
def setFormDelegate (v : FormView) (field : Field) (d : Option WAbstractFormDelegate) :
    Result Unit :=
  if v.model_.isSome then
    Result.threw orderingMessage v
  else
    match d with
    | none =>
      match v.formDelegates_.find field with
      | some _ => Result.ok () { v with formDelegates_ := v.formDelegates_.erase field }
      | none => Result.ok () v
    | some d => Result.ok () { v with formDelegates_ := v.formDelegates_.assign field d }

/-- The member `bool updateModelValue(model, field, Wt::WWidget *edit)`. -/
def updateModelValue_WWidget (fw : Framework) (v : FormView) (model : FormModel)
    (field : Field) (edit : WWidget) : Result Bool :=
  match v.delegate field with
  | some d =>
    let r := fw.delegateUpdateModelValue v.log d model field edit
    Result.ok r (v.record (Event.delegateUpdateModelValue_WWidget d model field edit r))
  | none =>
    let r := fw.baseUpdateModelValue v.log model field edit
    Result.ok r (v.record (Event.baseUpdateModelValue_WWidget model field edit r))

/-- The member `void updateModelValue(model, field, Wt::WFormWidget *edit)`. -/
def updateModelValue_WFormWidget (fw : Framework) (v : FormView) (model : FormModel)
    (field : Field) (edit : WWidget) : Result Unit :=
  match v.updateModelValue_WWidget fw model field edit with
  | Result.ok true v1 => Result.ok () v1
  | Result.ok false v1 =>
    match v1.delegate field with
    | some d =>
      Result.ok () (v1.record (Event.delegateUpdateModelValue_WFormWidget d model field edit))
    | none =>
      Result.ok () (v1.record (Event.baseUpdateModelValue_WFormWidget model field edit))
  | Result.threw what v1 => Result.threw what v1
  | Result.undefined => Result.undefined

/-- The member `bool updateViewValue(model, field, Wt::WWidget *edit)`. -/
def updateViewValue_WWidget (fw : Framework) (v : FormView) (model : FormModel)
    (field : Field) (edit : WWidget) : Result Bool :=
  match v.delegate field with
  | some d =>
    let r := fw.delegateUpdateViewValue v.log d model field edit
    Result.ok r (v.record (Event.delegateUpdateViewValue_WWidget d model field edit r))
  | none =>
    let r := fw.baseUpdateViewValue v.log model field edit
    Result.ok r (v.record (Event.baseUpdateViewValue_WWidget model field edit r))

/-- The member `void updateViewValue(model, field, Wt::WFormWidget *edit)`. -/
def updateViewValue_WFormWidget (fw : Framework) (v : FormView) (model : FormModel)
    (field : Field) (edit : WWidget) : Result Unit :=
  match v.updateViewValue_WWidget fw model field edit with
  | Result.ok true v1 => Result.ok () v1
  | Result.ok false v1 =>
    match v1.delegate field with
    | some d =>
      Result.ok () (v1.record (Event.delegateUpdateViewValue_WFormWidget d model field edit))
    | none =>
      Result.ok () (v1.record (Event.baseUpdateViewValue_WFormWidget model field edit))
  | Result.threw what v1 => Result.threw what v1
  | Result.undefined => Result.undefined

/-- The member `save()`. -/
def save (fw : Framework) (v : FormView) : Result Unit :=
  match v.model_ with
  | none => Result.undefined
  | some m =>
    let v1 := v.record (Event.updateModel m)
    let valid := fw.validate v1.log m
    let v2 := v1.record (Event.validate m valid)
    if valid then
      let v3 := v2.record (Event.saveDboValues m)
      let v4 := v3.record (Event.updateView m)
      Result.ok () (v4.record Event.savedEmit)
    else
      let v3 := v2.record (Event.updateView m)
      Result.ok () (v3.record Event.validationFailedEmit)

/-- One call of the public interface, with its arguments. -/
inductive Op where
  | setFormModel (model : Option FormModel)
  | setFormDelegate (field : Field) (d : Option WAbstractFormDelegate)
  | updateModelValue_WFormWidget (model : FormModel) (field : Field) (edit : WWidget)
  | updateModelValue_WWidget (model : FormModel) (field : Field) (edit : WWidget)
  | updateViewValue_WFormWidget (model : FormModel) (field : Field) (edit : WWidget)
  | updateViewValue_WWidget (model : FormModel) (field : Field) (edit : WWidget)
  | save
deriving DecidableEq, Repr

/-- Whether the call is a `setFormModel`. -/
def Op.isSetFormModel : Op → Bool
  | Op.setFormModel _ => true
  | _ => false

/-- The object after one call of the interface; `none` when the call has no
defined behaviour.  A call that throws leaves the object it returns alive. -/
def step (fw : Framework) (v : FormView) : Op → Option FormView
  | Op.setFormModel model => (v.setFormModel fw model).view?
  | Op.setFormDelegate field d => (v.setFormDelegate field d).view?
  | Op.updateModelValue_WFormWidget model field edit =>
    (v.updateModelValue_WFormWidget fw model field edit).view?
  | Op.updateModelValue_WWidget model field edit =>
    (v.updateModelValue_WWidget fw model field edit).view?
  | Op.updateViewValue_WFormWidget model field edit =>
    (v.updateViewValue_WFormWidget fw model field edit).view?
  | Op.updateViewValue_WWidget model field edit =>
    (v.updateViewValue_WWidget fw model field edit).view?
  | Op.save => (v.save fw).view?

/-- The object after a sequence of calls, made one after the other. -/
def run (fw : Framework) : FormView → List Op → Option FormView
  | v, [] => some v
  | v, op :: ops =>
    match v.step fw op with
    | some v1 => run fw v1 ops
    | none => none

/-- The binding state: "bound" once `model_` is set, "configurable" before. -/
def bound (v : FormView) : Bool := v.model_.isSome

end FormView

/-- Modelled from the spec: the view action of `Wt/Form/Dbo/Actions.h`, run by
`C::persist`, is not among the sources.  Section 4.1 says it serves "to
auto-populate the delegate map for any field lacking a manual override".
The list `generated` gives, in declaration order, the fields that `C::persist`
announces, each with the default delegate made for it. -/
def ViewAction.persist (generated : List (Field × WAbstractFormDelegate))
    (dm : DelegateMap) : DelegateMap :=
  generated.foldl
    (fun acc p =>
      match acc.find p.1 with
      | some _ => acc
      | none => acc.assign p.1 p.2)
    dm

/-- The condition "the auto-generation step only adds entries for fields that
have no entry": an entry present before `persist` is the entry afterwards. -/
def PersistKeepsEntries (fw : Framework) : Prop :=
  ∀ (log : List Event) (m : FormModel) (dm : DelegateMap) (k : Field)
    (d : WAbstractFormDelegate), dm k = some d → fw.persist log m dm k = some d

/-- The calls that `setFormModel` is specified to make for a field `f` whose
entry in the delegate map is `d`, when `pre` is the log at the start of the
field's turn: `d->createFormWidget()`, whose answer is the widget customised
once and then installed, and after these three calls `d->createValidator()`,
whose answer is the validator customised once and then installed on the model. -/
def delegateCalls (fw : Framework) (d : WAbstractFormDelegate) (m : FormModel)
    (pre : List Event) (f : Field) : List Event :=
  let w := fw.createFormWidget pre d
  let val := fw.createValidator
    (pre ++ [Event.createFormWidget d w, Event.customizeFormWidget f w,
      Event.setFormWidget f w]) d
  [Event.createFormWidget d w, Event.customizeFormWidget f w, Event.setFormWidget f w,
   Event.createValidator d val, Event.customizeValidator f val, Event.setValidator m f val]

/-- The calls that `setFormModel` is specified to make for one field `f`, given
the delegate map `dm` left by the auto-generation and the log `pre` at the
start of the field's turn: with an entry `d`, the calls `delegateCalls` of
`d`; without an entry, a null widget and a null validator, installed without
a call to a customisation hook. -/
def fieldCalls (fw : Framework) (dm : DelegateMap) (m : FormModel) (pre : List Event)
    (f : Field) : List Event :=
  match dm f with
  | some d => delegateCalls fw d m pre f
  | none => [Event.setFormWidget f none, Event.setValidator m f none]

/-- The groups of calls that `setFormModel` is specified to make for a field
list: one group `fieldCalls` per field, in the order of the list, each
starting from the log the groups before it have left. -/
def fieldGroups (fw : Framework) (dm : DelegateMap) (m : FormModel) :
    List Event → List Field → List (List Event)
  | _, [] => []
  | pre, f :: fs =>
    fieldCalls fw dm m pre f :: fieldGroups fw dm m (pre ++ fieldCalls fw dm m pre f) fs

/-- Binding the view `v` to the model `m` installs for the field `f` what the
delegate `g` produces: `setFormModel` returns normally with `g` as the delegate
of `f`; its log contains the run `delegateCalls` of `g` for `f`, whose widget
and validator are the answers of `g->createFormWidget()` and
`g->createValidator()` at that point; and wherever this `setFormModel` installs
a widget (a validator) for `f`, the two calls just before are the creation of
that widget (validator) by `g`, with the answer `g` gave there, and its
customisation. -/
def BindingInstallsFrom (fw : Framework) (v : FormView) (m : FormModel) (f : Field)
    (g : WAbstractFormDelegate) : Prop :=
  ∃ (v2 : FormView) (pre post : List Event),
    v.setFormModel fw (some m) = Result.ok () v2 ∧
    v2.delegate f = some g ∧
    v2.log = v.log ++ pre ++ delegateCalls fw g m (v.log ++ pre) f ++ post ∧
    (∀ (p q : List Event) (w : Option WWidget),
      v2.log = v.log ++ p ++ Event.setFormWidget f w :: q →
      ∃ p0 : List Event,
        p = p0 ++ [Event.createFormWidget g w, Event.customizeFormWidget f w] ∧
        w = fw.createFormWidget (v.log ++ p0) g) ∧
    (∀ (p q : List Event) (val : Option WValidator),
      v2.log = v.log ++ p ++ Event.setValidator m f val :: q →
      ∃ p0 : List Event,
        p = p0 ++ [Event.createValidator g val, Event.customizeValidator f val] ∧
        val = fw.createValidator (v.log ++ p0) g)

/-- A framework for worked examples: `persist` is the spec-modelled view action
generating delegate 100 for "name" and 101 for "age"; the model declares the
fields "name" and "age"; every created widget and validator is numbered by
the length of the log at its creation; `valid` is what `validate` answers and
`handled` what every `WWidget*` transfer answers. -/
def sampleFramework (valid handled : Bool) : Framework where
  persist := fun _ _ dm => ViewAction.persist [("name", ⟨100⟩), ("age", ⟨101⟩)] dm
  fields := fun _ _ => ["name", "age"]
  createFormWidget := fun log _ => some ⟨log.length⟩
  createValidator := fun log _ => some ⟨log.length⟩
  validate := fun _ _ => valid
  delegateUpdateModelValue := fun _ _ _ _ _ => handled
  baseUpdateModelValue := fun _ _ _ _ => handled
  delegateUpdateViewValue := fun _ _ _ _ _ => handled
  baseUpdateViewValue := fun _ _ _ _ => handled

/-- A framework whose own transfers always report success while every
delegate transfer declines. -/
def decliningDelegates : Framework where
  persist := fun _ _ dm => dm
  fields := fun _ _ => ["name"]
  createFormWidget := fun _ _ => none
  createValidator := fun _ _ => none
  validate := fun _ _ => true
  delegateUpdateModelValue := fun _ _ _ _ _ => false
  baseUpdateModelValue := fun _ _ _ _ => true
  delegateUpdateViewValue := fun _ _ _ _ _ => false
  baseUpdateViewValue := fun _ _ _ _ => true

/-- A fresh view. -/
def sampleView : FormView := FormView.new "form"

/-- A fresh view on which delegate 7 was set for "name". -/
def sampleViewWithDelegate : FormView :=
  { sampleView with formDelegates_ := sampleView.formDelegates_.assign "name" ⟨7⟩ }

/-- A view bound to model 1, with delegate 7 for "name". -/
def sampleBoundView : FormView :=
  { sampleViewWithDelegate with model_ := some ⟨1⟩ }

/-- The view `sampleViewWithDelegate` after `setFormDelegate("name", null)`. -/
def sampleViewRemoved : FormView :=
  { sampleViewWithDelegate with
    formDelegates_ := sampleViewWithDelegate.formDelegates_.erase "name" }

/-- The view `sampleView` after `setFormModel` with model 1 under `decliningDelegates`:
no delegate, so a null widget and a null validator for the one field "name". -/
def sampleAfterBinding : FormView :=
  { model_ := some ⟨1⟩,
    formDelegates_ := DelegateMap.empty,
    log := [Event.baseConstructor "form", Event.session ⟨1⟩, Event.persist ⟨1⟩,
      Event.fields ⟨1⟩, Event.setFormWidget "name" none, Event.setValidator ⟨1⟩ "name" none,
      Event.updateView ⟨1⟩] }

/-- The view `sampleBoundView` after `setFormDelegate("age", 9)` (which throws),
`save()`, the `WFormWidget*` model transfer for "name" and the `WWidget*` view
transfer for "age", under `sampleFramework true false`. -/
def sampleAfterCalls : FormView :=
  { model_ := some ⟨1⟩,
    formDelegates_ := sampleBoundView.formDelegates_,
    log := [Event.baseConstructor "form", Event.updateModel ⟨1⟩, Event.validate ⟨1⟩ true,
      Event.saveDboValues ⟨1⟩, Event.updateView ⟨1⟩, Event.savedEmit,
      Event.delegateUpdateModelValue_WWidget ⟨7⟩ ⟨1⟩ "name" ⟨3⟩ false,
      Event.delegateUpdateModelValue_WFormWidget ⟨7⟩ ⟨1⟩ "name" ⟨3⟩,
      Event.baseUpdateViewValue_WWidget ⟨1⟩ "age" ⟨4⟩ false] }

/-- The calls that lead from `sampleBoundView` to `sampleAfterCalls`. -/
def sampleCalls : List FormView.Op :=
  [FormView.Op.setFormDelegate "age" (some ⟨9⟩), FormView.Op.save,
   FormView.Op.updateModelValue_WFormWidget ⟨1⟩ "name" ⟨3⟩,
   FormView.Op.updateViewValue_WWidget ⟨1⟩ "age" ⟨4⟩]

namespace FormView

@[simp]
theorem record_model_ (v : FormView) (e : Event) : (v.record e).model_ = v.model_ := rfl

@[simp]
theorem record_formDelegates_ (v : FormView) (e : Event) :
    (v.record e).formDelegates_ = v.formDelegates_ := rfl

@[simp]
theorem record_log (v : FormView) (e : Event) : (v.record e).log = v.log ++ [e] := rfl

@[simp]
theorem record_delegate (v : FormView) (e : Event) (field : Field) :
    (v.record e).delegate field = v.delegate field := rfl

theorem delegate_eq_find (v : FormView) (field : Field) :
    v.delegate field = v.formDelegates_ field := by
  unfold delegate DelegateMap.find
  cases v.formDelegates_ field <;> rfl

theorem formWidget_some (fw : Framework) (v : FormView) (field : Field)
    (d : WAbstractFormDelegate) (h : v.delegate field = some d) :
    v.formWidget fw field =
      (fw.createFormWidget v.log d,
        (v.record (Event.createFormWidget d (fw.createFormWidget v.log d))).record
          (Event.customizeFormWidget field (fw.createFormWidget v.log d))) := by
  unfold formWidget
  rw [h]

theorem formWidget_none (fw : Framework) (v : FormView) (field : Field)
    (h : v.delegate field = none) : v.formWidget fw field = (none, v) := by
  unfold formWidget
  rw [h]

theorem validator_some (fw : Framework) (v : FormView) (field : Field)
    (d : WAbstractFormDelegate) (h : v.delegate field = some d) :
    v.validator fw field =
      (fw.createValidator v.log d,
        (v.record (Event.createValidator d (fw.createValidator v.log d))).record
          (Event.customizeValidator field (fw.createValidator v.log d))) := by
  unfold validator
  rw [h]

theorem validator_none (fw : Framework) (v : FormView) (field : Field)
    (h : v.delegate field = none) : v.validator fw field = (none, v) := by
  unfold validator
  rw [h]

/-- One pass of the loop leaves both members alone and appends the calls
specified for the field. -/
theorem installField_spec (fw : Framework) (m : FormModel) (v : FormView) (f : Field) :
    v.installField fw m f =
      { model_ := v.model_, formDelegates_ := v.formDelegates_,
        log := v.log ++ fieldCalls fw v.formDelegates_ m v.log f } := by
  cases hd : v.delegate f with
  | none =>
    have h0 : v.formDelegates_ f = none := by rw [← delegate_eq_find]; exact hd
    unfold installField
    rw [formWidget_none fw v f hd]
    dsimp only
    rw [validator_none fw _ f (by simpa using hd)]
    simp [record, fieldCalls, h0]
  | some d =>
    have h0 : v.formDelegates_ f = some d := by rw [← delegate_eq_find]; exact hd
    unfold installField
    rw [formWidget_some fw v f d hd]
    dsimp only
    rw [validator_some fw _ f d (by simpa using hd)]
    simp [record, fieldCalls, delegateCalls, h0]

/-- The whole loop: the groups specified for the field list, and no change to
the two members. -/
theorem installFields_spec (fw : Framework) (m : FormModel) (fs : List Field) :
    ∀ v : FormView,
      fs.foldl (installField fw m) v =
        { model_ := v.model_, formDelegates_ := v.formDelegates_,
          log := v.log ++ (fieldGroups fw v.formDelegates_ m v.log fs).flatten } := by
  induction fs with
  | nil =>
    intro v
    simp [fieldGroups]
  | cons f fs ih =>
    intro v
    rw [List.foldl_cons, installField_spec fw m v f, ih]
    simp [fieldGroups]

/-- What `setFormModel` does with a non-null model. -/
theorem setFormModel_some (fw : Framework) (v : FormView) (m : FormModel) :
    v.setFormModel fw (some m) =
      Result.ok ()
        { model_ := some m,
          formDelegates_ := fw.persist (v.log ++ [Event.session m]) m v.formDelegates_,
          log := v.log ++ [Event.session m, Event.persist m, Event.fields m]
            ++ (fieldGroups fw (fw.persist (v.log ++ [Event.session m]) m v.formDelegates_) m
                (v.log ++ [Event.session m, Event.persist m, Event.fields m])
                (fw.fields (v.log ++ [Event.session m, Event.persist m]) m)).flatten
            ++ [Event.updateView m] } := by
  have hloop :=
    installFields_spec fw m (fw.fields (v.log ++ [Event.session m, Event.persist m]) m)
      { model_ := some m,
        formDelegates_ := fw.persist (v.log ++ [Event.session m]) m v.formDelegates_,
        log := v.log ++ [Event.session m, Event.persist m, Event.fields m] }
  simp only [setFormModel, record, List.append_assoc, List.singleton_append,
    List.cons_append, List.nil_append] at hloop ⊢
  rw [hloop]
  simp

theorem updateModelValue_WWidget_some (fw : Framework) (v : FormView) (model : FormModel)
    (field : Field) (edit : WWidget) (d : WAbstractFormDelegate)
    (h : v.delegate field = some d) :
    v.updateModelValue_WWidget fw model field edit =
      Result.ok (fw.delegateUpdateModelValue v.log d model field edit)
        (v.record (Event.delegateUpdateModelValue_WWidget d model field edit
          (fw.delegateUpdateModelValue v.log d model field edit))) := by
  unfold updateModelValue_WWidget
  rw [h]

theorem updateModelValue_WWidget_none (fw : Framework) (v : FormView) (model : FormModel)
    (field : Field) (edit : WWidget) (h : v.delegate field = none) :
    v.updateModelValue_WWidget fw model field edit =
      Result.ok (fw.baseUpdateModelValue v.log model field edit)
        (v.record (Event.baseUpdateModelValue_WWidget model field edit
          (fw.baseUpdateModelValue v.log model field edit))) := by
  unfold updateModelValue_WWidget
  rw [h]

theorem updateViewValue_WWidget_some (fw : Framework) (v : FormView) (model : FormModel)
    (field : Field) (edit : WWidget) (d : WAbstractFormDelegate)
    (h : v.delegate field = some d) :
    v.updateViewValue_WWidget fw model field edit =
      Result.ok (fw.delegateUpdateViewValue v.log d model field edit)
        (v.record (Event.delegateUpdateViewValue_WWidget d model field edit
          (fw.delegateUpdateViewValue v.log d model field edit))) := by
  unfold updateViewValue_WWidget
  rw [h]

theorem updateViewValue_WWidget_none (fw : Framework) (v : FormView) (model : FormModel)
    (field : Field) (edit : WWidget) (h : v.delegate field = none) :
    v.updateViewValue_WWidget fw model field edit =
      Result.ok (fw.baseUpdateViewValue v.log model field edit)
        (v.record (Event.baseUpdateViewValue_WWidget model field edit
          (fw.baseUpdateViewValue v.log model field edit))) := by
  unfold updateViewValue_WWidget
  rw [h]

theorem updateModelValue_WFormWidget_some (fw : Framework) (v : FormView)
    (model : FormModel) (field : Field) (edit : WWidget) (d : WAbstractFormDelegate)
    (h : v.delegate field = some d) :
    v.updateModelValue_WFormWidget fw model field edit =
      Result.ok ()
        (if fw.delegateUpdateModelValue v.log d model field edit = true then
          v.record (Event.delegateUpdateModelValue_WWidget d model field edit true)
        else
          (v.record (Event.delegateUpdateModelValue_WWidget d model field edit false)).record
            (Event.delegateUpdateModelValue_WFormWidget d model field edit)) := by
  unfold updateModelValue_WFormWidget
  rw [updateModelValue_WWidget_some fw v model field edit d h]
  cases hr : fw.delegateUpdateModelValue v.log d model field edit <;> simp [h]

theorem updateModelValue_WFormWidget_none (fw : Framework) (v : FormView)
    (model : FormModel) (field : Field) (edit : WWidget)
    (h : v.delegate field = none) :
    v.updateModelValue_WFormWidget fw model field edit =
      Result.ok ()
        (if fw.baseUpdateModelValue v.log model field edit = true then
          v.record (Event.baseUpdateModelValue_WWidget model field edit true)
        else
          (v.record (Event.baseUpdateModelValue_WWidget model field edit false)).record
            (Event.baseUpdateModelValue_WFormWidget model field edit)) := by
  unfold updateModelValue_WFormWidget
  rw [updateModelValue_WWidget_none fw v model field edit h]
  cases hr : fw.baseUpdateModelValue v.log model field edit <;> simp [h]

theorem updateViewValue_WFormWidget_some (fw : Framework) (v : FormView)
    (model : FormModel) (field : Field) (edit : WWidget) (d : WAbstractFormDelegate)
    (h : v.delegate field = some d) :
    v.updateViewValue_WFormWidget fw model field edit =
      Result.ok ()
        (if fw.delegateUpdateViewValue v.log d model field edit = true then
          v.record (Event.delegateUpdateViewValue_WWidget d model field edit true)
        else
          (v.record (Event.delegateUpdateViewValue_WWidget d model field edit false)).record
            (Event.delegateUpdateViewValue_WFormWidget d model field edit)) := by
  unfold updateViewValue_WFormWidget
  rw [updateViewValue_WWidget_some fw v model field edit d h]
  cases hr : fw.delegateUpdateViewValue v.log d model field edit <;> simp [h]

theorem updateViewValue_WFormWidget_none (fw : Framework) (v : FormView)
    (model : FormModel) (field : Field) (edit : WWidget)
    (h : v.delegate field = none) :
    v.updateViewValue_WFormWidget fw model field edit =
      Result.ok ()
        (if fw.baseUpdateViewValue v.log model field edit = true then
          v.record (Event.baseUpdateViewValue_WWidget model field edit true)
        else
          (v.record (Event.baseUpdateViewValue_WWidget model field edit false)).record
            (Event.baseUpdateViewValue_WFormWidget model field edit)) := by
  unfold updateViewValue_WFormWidget
  rw [updateViewValue_WWidget_none fw v model field edit h]
  cases hr : fw.baseUpdateViewValue v.log model field edit <;> simp [h]

/-- What `save` does on a bound view. -/
theorem save_bound (fw : Framework) (v : FormView) (m : FormModel) (hm : v.model_ = some m) :
    v.save fw =
      Result.ok ()
        (if fw.validate (v.log ++ [Event.updateModel m]) m = true then
          { v with log := v.log ++ [Event.updateModel m, Event.validate m true,
              Event.saveDboValues m, Event.updateView m, Event.savedEmit] }
        else
          { v with log := v.log ++ [Event.updateModel m, Event.validate m false,
              Event.updateView m, Event.validationFailedEmit] }) := by
  unfold save
  rw [hm]
  cases hr : fw.validate (v.log ++ [Event.updateModel m]) m <;> simp [record, hr, hm]

/-- What `setFormDelegate` does on a bound view. -/
theorem setFormDelegate_bound (v : FormView) (hb : v.bound = true) (field : Field)
    (d : Option WAbstractFormDelegate) :
    v.setFormDelegate field d = Result.threw orderingMessage v := by
  unfold bound at hb
  unfold setFormDelegate
  rw [if_pos hb]

/-- A call other than `setFormModel` leaves `model_` and, on a bound view,
`formDelegates_` as they were. -/
theorem step_members (fw : Framework) (v v1 : FormView) (op : Op)
    (hop : op.isSetFormModel = false) (h : v.step fw op = some v1) :
    v1.model_ = v.model_ ∧ (v.bound = true → v1.formDelegates_ = v.formDelegates_) := by
  cases op with
  | setFormModel model => simp [Op.isSetFormModel] at hop
  | setFormDelegate field d =>
    cases hb : v.bound with
    | true =>
      simp only [step, setFormDelegate_bound v hb, Result.view?, Option.some.injEq] at h
      subst h
      simp
    | false =>
      have hnone : v.model_.isSome = false := hb
      simp only [step, setFormDelegate, hnone] at h
      cases d with
      | none =>
        cases hf : v.formDelegates_.find field <;>
          simp [hf, Result.view?] at h <;> subst h <;> simp
      | some d =>
        simp [Result.view?] at h
        subst h
        simp
  | updateModelValue_WFormWidget model field edit =>
    simp only [step] at h
    cases hd : v.delegate field with
    | none =>
      rw [updateModelValue_WFormWidget_none fw v model field edit hd] at h
      simp only [Result.view?, Option.some.injEq] at h
      subst h
      split <;> simp
    | some d =>
      rw [updateModelValue_WFormWidget_some fw v model field edit d hd] at h
      simp only [Result.view?, Option.some.injEq] at h
      subst h
      split <;> simp
  | updateModelValue_WWidget model field edit =>
    simp only [step] at h
    cases hd : v.delegate field with
    | none =>
      rw [updateModelValue_WWidget_none fw v model field edit hd] at h
      simp only [Result.view?, Option.some.injEq] at h
      subst h
      simp
    | some d =>
      rw [updateModelValue_WWidget_some fw v model field edit d hd] at h
      simp only [Result.view?, Option.some.injEq] at h
      subst h
      simp
  | updateViewValue_WFormWidget model field edit =>
    simp only [step] at h
    cases hd : v.delegate field with
    | none =>
      rw [updateViewValue_WFormWidget_none fw v model field edit hd] at h
      simp only [Result.view?, Option.some.injEq] at h
      subst h
      split <;> simp
    | some d =>
      rw [updateViewValue_WFormWidget_some fw v model field edit d hd] at h
      simp only [Result.view?, Option.some.injEq] at h
      subst h
      split <;> simp
  | updateViewValue_WWidget model field edit =>
    simp only [step] at h
    cases hd : v.delegate field with
    | none =>
      rw [updateViewValue_WWidget_none fw v model field edit hd] at h
      simp only [Result.view?, Option.some.injEq] at h
      subst h
      simp
    | some d =>
      rw [updateViewValue_WWidget_some fw v model field edit d hd] at h
      simp only [Result.view?, Option.some.injEq] at h
      subst h
      simp
  | save =>
    simp only [step] at h
    cases hm : v.model_ with
    | none => simp [save, hm, Result.view?] at h
    | some m =>
      rw [save_bound fw v m hm] at h
      simp only [Result.view?, Option.some.injEq] at h
      subst h
      split <;> simp [hm]

/-- No call of the interface takes a bound view back to an unbound one. -/
theorem step_bound (fw : Framework) (v v1 : FormView) (op : Op) (hb : v.bound = true)
    (h : v.step fw op = some v1) : v1.bound = true := by
  cases hop : op.isSetFormModel with
  | false =>
    have hm := (step_members fw v v1 op hop h).1
    unfold bound at hb ⊢
    rw [hm]
    exact hb
  | true =>
    cases op with
    | setFormModel model =>
      cases model with
      | none => simp [step, setFormModel, Result.view?] at h
      | some m =>
        have heq := setFormModel_some fw v m
        simp only [step, heq, Result.view?, Option.some.injEq] at h
        subst h
        rfl
    | _ => simp [Op.isSetFormModel] at hop

theorem run_bound (fw : Framework) (ops : List Op) :
    ∀ v v1 : FormView, v.bound = true → run fw v ops = some v1 → v1.bound = true := by
  induction ops with
  | nil =>
    intro v v1 hb h
    simp only [run, Option.some.injEq] at h
    subst h
    exact hb
  | cons op ops ih =>
    intro v v1 hb h
    simp only [run] at h
    cases hs : v.step fw op with
    | none => simp [hs] at h
    | some v2 =>
      simp only [hs] at h
      exact ih v2 v1 (step_bound fw v v2 op hb hs) h

theorem run_formDelegates (fw : Framework) (ops : List Op) :
    ∀ v v1 : FormView, v.bound = true → (∀ op ∈ ops, op.isSetFormModel = false) →
      run fw v ops = some v1 → v1.formDelegates_ = v.formDelegates_ := by
  induction ops with
  | nil =>
    intro v v1 _ _ h
    simp only [run, Option.some.injEq] at h
    subst h
    rfl
  | cons op ops ih =>
    intro v v1 hb hops h
    simp only [run] at h
    cases hs : v.step fw op with
    | none => simp [hs] at h
    | some v2 =>
      simp only [hs] at h
      have hop : op.isSetFormModel = false := hops op (List.mem_cons_self op ops)
      have h2 := ih v2 v1 (step_bound fw v v2 op hb hs)
        (fun o ho => hops o (List.mem_cons_of_mem op ho)) h
      rw [h2]
      exact (step_members fw v v2 op hop hs).2 hb

end FormView

/-! ## Facts about the groups of calls made per field -/

/-- A group of calls made for a field never contains `updateView`. -/
theorem fieldCalls_no_updateView (fw : Framework) (dm : DelegateMap) (m m1 : FormModel)
    (pre : List Event) (f : Field) : Event.updateView m1 ∉ fieldCalls fw dm m pre f := by
  unfold fieldCalls
  cases dm f <;> simp [delegateCalls]

theorem fieldGroups_no_updateView (fw : Framework) (dm : DelegateMap) (m m1 : FormModel)
    (fs : List Field) :
    ∀ pre : List Event, Event.updateView m1 ∉ (fieldGroups fw dm m pre fs).flatten := by
  induction fs with
  | nil =>
    intro pre
    simp [fieldGroups]
  | cons f fs ih =>
    intro pre
    simp only [fieldGroups, List.flatten_cons, List.mem_append, not_or]
    exact ⟨fieldCalls_no_updateView fw dm m m1 pre f, ih _⟩

theorem fieldGroups_length (fw : Framework) (dm : DelegateMap) (m : FormModel)
    (fs : List Field) :
    ∀ pre : List Event, (fieldGroups fw dm m pre fs).length = fs.length := by
  induction fs with
  | nil =>
    intro pre
    rfl
  | cons f fs ih =>
    intro pre
    simp [fieldGroups, ih]

/-- The group at position `i` is the one specified for the field at position
`i`, started from the log that the groups before it have left. -/
theorem fieldGroups_at (fw : Framework) (dm : DelegateMap) (m : FormModel)
    (fs : List Field) :
    ∀ (pre : List Event) (i : Nat) (f : Field), fs[i]? = some f →
      (fieldGroups fw dm m pre fs)[i]? =
        some (fieldCalls fw dm m
          (pre ++ ((fieldGroups fw dm m pre fs).take i).flatten) f) := by
  induction fs with
  | nil =>
    intro pre i f h
    simp at h
  | cons f0 fs ih =>
    intro pre i f h
    cases i with
    | zero =>
      simp at h
      subst h
      simp [fieldGroups]
    | succ i =>
      simp at h
      have := ih (pre ++ fieldCalls fw dm m pre f0) i f h
      simp [fieldGroups, this]

/-- A declared field has its group in the log. -/
theorem fieldGroups_of_mem (fw : Framework) (dm : DelegateMap) (m : FormModel)
    (f : Field) (fs : List Field) :
    ∀ pre : List Event, f ∈ fs →
      ∃ s t : List Event,
        (fieldGroups fw dm m pre fs).flatten = s ++ fieldCalls fw dm m (pre ++ s) f ++ t := by
  induction fs with
  | nil =>
    intro pre h
    simp at h
  | cons f0 fs ih =>
    intro pre h
    rcases List.mem_cons.mp h with h0 | h0
    · subst h0
      exact ⟨[], (fieldGroups fw dm m (pre ++ fieldCalls fw dm m pre f) fs).flatten,
        by simp [fieldGroups]⟩
    · obtain ⟨s, t, hst⟩ := ih (pre ++ fieldCalls fw dm m pre f0) h0
      refine ⟨fieldCalls fw dm m pre f0 ++ s, t, ?_⟩
      simp [fieldGroups, hst, List.append_assoc]

/-- Where the call `e` stands in the groups of a field list: a property `Q` of
the log before a group and the calls between that log and `e`, which holds
inside every single group and is kept when a group is put in front, holds in
the whole. -/
theorem fieldGroups_split (fw : Framework) (dm : DelegateMap) (m : FormModel) (e : Event)
    (Q : List Event → List Event → Prop)
    (hgroup : ∀ (pre : List Event) (f1 : Field) (p q : List Event),
      fieldCalls fw dm m pre f1 = p ++ e :: q → Q pre p)
    (hshift : ∀ pre b p : List Event, Q (pre ++ b) p → Q pre (b ++ p))
    (fs : List Field) :
    ∀ pre p q : List Event, (fieldGroups fw dm m pre fs).flatten = p ++ e :: q → Q pre p := by
  induction fs with
  | nil =>
    intro pre p q h
    simp [fieldGroups] at h
  | cons f0 fs ih =>
    intro pre p q h
    simp only [fieldGroups, List.flatten_cons] at h
    rcases List.append_eq_append_iff.mp h with ⟨a1, hp, hrest⟩ | ⟨c1, hb, hc⟩
    · rw [hp]
      exact hshift _ _ _ (ih _ a1 q hrest)
    · cases c1 with
      | nil =>
        simp only [List.append_nil, List.nil_append] at hb hc
        have := hshift _ _ _ (ih (pre ++ fieldCalls fw dm m pre f0) [] q (by simpa using hc.symm))
        rw [← hb]
        simpa using this
      | cons x c2 =>
        simp only [List.cons_append, List.cons.injEq] at hc
        obtain ⟨hx, -⟩ := hc
        subst hx
        exact hgroup pre f0 p c2 hb

/-- The same for the whole log of `setFormModel`, for a call `e` that is none
of `session`, `persist`, `fields` and `updateView`. -/
theorem bindingLog_split (fw : Framework) (dm : DelegateMap) (m : FormModel) (e : Event)
    (Q : List Event → List Event → Prop)
    (hgroup : ∀ (pre : List Event) (f1 : Field) (p q : List Event),
      fieldCalls fw dm m pre f1 = p ++ e :: q → Q pre p)
    (hshift : ∀ pre b p : List Event, Q (pre ++ b) p → Q pre (b ++ p))
    (h1 : e ≠ Event.session m) (h2 : e ≠ Event.persist m) (h3 : e ≠ Event.fields m)
    (h4 : e ≠ Event.updateView m) (fs : List Field) (pre p q : List Event)
    (h : [Event.session m, Event.persist m, Event.fields m]
        ++ (fieldGroups fw dm m (pre ++ [Event.session m, Event.persist m, Event.fields m])
            fs).flatten
        ++ [Event.updateView m] = p ++ e :: q) :
    Q pre p := by
  have key : ∀ a1 : List Event,
      (fieldGroups fw dm m (pre ++ [Event.session m, Event.persist m, Event.fields m])
        fs).flatten ++ [Event.updateView m] = a1 ++ e :: q →
      Q (pre ++ [Event.session m, Event.persist m, Event.fields m]) a1 := by
    intro a1 hrest
    rcases List.append_eq_append_iff.mp hrest with ⟨a2, ha, hlast⟩ | ⟨c2, hb2, hc2⟩
    · exfalso
      cases a2 with
      | nil =>
        simp at hlast
        exact h4 hlast.1.symm
      | cons x a3 => simp at hlast
    · cases c2 with
      | nil =>
        exfalso
        simp at hc2
        exact h4 hc2.1
      | cons x c3 =>
        simp only [List.cons_append, List.cons.injEq] at hc2
        obtain ⟨hx, -⟩ := hc2
        subst hx
        exact fieldGroups_split fw dm m _ Q hgroup hshift fs _ a1 c3 hb2
  rw [List.append_assoc] at h
  rcases List.append_eq_append_iff.mp h with ⟨a1, hp, hrest⟩ | ⟨c1, hb, hc⟩
  · rw [hp]
    exact hshift _ _ _ (key a1 hrest)
  · cases c1 with
    | nil =>
      simp only [List.append_nil, List.nil_append] at hb hc
      rw [← hb]
      have := hshift _ _ _ (key [] (by simpa using hc.symm))
      simpa using this
    | cons x c2 =>
      exfalso
      simp only [List.cons_append, List.cons.injEq] at hc
      have hmem : e ∈ [Event.session m, Event.persist m, Event.fields m] := by
        rw [hb, ← hc.1]
        simp
      simp at hmem
      rcases hmem with h | h | h
      · exact h1 h
      · exact h2 h
      · exact h3 h

/-- Inside one group, the installation of a widget for a field with the
delegate `g` comes right after the creation of that widget by `g` and its
customisation. -/
theorem fieldCalls_widget (fw : Framework) (dm : DelegateMap) (m : FormModel)
    (f : Field) (g : WAbstractFormDelegate) (hg : dm f = some g) (w : Option WWidget)
    (pre : List Event) (f1 : Field) (p q : List Event)
    (h : fieldCalls fw dm m pre f1 = p ++ Event.setFormWidget f w :: q) :
    ∃ p0 : List Event,
      p = p0 ++ [Event.createFormWidget g w, Event.customizeFormWidget f w] ∧
      w = fw.createFormWidget (pre ++ p0) g := by
  unfold fieldCalls at h
  cases hd1 : dm f1 with
  | none =>
    rw [hd1] at h
    rcases p with _ | ⟨x1, _ | ⟨x2, p⟩⟩ <;> simp at h
    rw [h.1.1, hg] at hd1
    cases hd1
  | some d1 =>
    rw [hd1] at h
    rcases p with _ | ⟨x1, _ | ⟨x2, _ | ⟨x3, _ | ⟨x4, _ | ⟨x5, _ | ⟨x6, p⟩⟩⟩⟩⟩⟩ <;>
      simp [delegateCalls] at h
    obtain ⟨h1, h2, ⟨hf, hw⟩, -⟩ := h
    rw [hf, hg] at hd1
    cases hd1
    subst hf h1 h2 hw
    exact ⟨[], by simp, by simp⟩

/-- Inside one group, the installation of a validator for a field with the
delegate `g` comes right after the creation of that validator by `g` and its
customisation. -/
theorem fieldCalls_validator (fw : Framework) (dm : DelegateMap) (m : FormModel)
    (f : Field) (g : WAbstractFormDelegate) (hg : dm f = some g) (val : Option WValidator)
    (pre : List Event) (f1 : Field) (p q : List Event)
    (h : fieldCalls fw dm m pre f1 = p ++ Event.setValidator m f val :: q) :
    ∃ p0 : List Event,
      p = p0 ++ [Event.createValidator g val, Event.customizeValidator f val] ∧
      val = fw.createValidator (pre ++ p0) g := by
  unfold fieldCalls at h
  cases hd1 : dm f1 with
  | none =>
    rw [hd1] at h
    rcases p with _ | ⟨x1, _ | ⟨x2, p⟩⟩ <;> simp at h
    rw [h.2.1.1, hg] at hd1
    cases hd1
  | some d1 =>
    rw [hd1] at h
    rcases p with _ | ⟨x1, _ | ⟨x2, _ | ⟨x3, _ | ⟨x4, _ | ⟨x5, _ | ⟨x6, p⟩⟩⟩⟩⟩⟩ <;>
      simp [delegateCalls] at h
    obtain ⟨h1, h2, h3, h4, h5, ⟨hf, hv⟩, -⟩ := h
    rw [hf, hg] at hd1
    cases hd1
    subst hf h1 h2 h3 h4 h5 hv
    exact ⟨[Event.createFormWidget g (fw.createFormWidget pre g),
      Event.customizeFormWidget f1 (fw.createFormWidget pre g),
      Event.setFormWidget f1 (fw.createFormWidget pre g)], by simp, by simp⟩

/-- Binding a view on which the auto-generation leaves the delegate `g` for a
declared field `f` installs for `f` what `g` produces. -/
theorem binding_installs_from (fw : Framework) (v : FormView) (m : FormModel) (f : Field)
    (g : WAbstractFormDelegate)
    (hg : fw.persist (v.log ++ [Event.session m]) m v.formDelegates_ f = some g)
    (hf : f ∈ fw.fields (v.log ++ [Event.session m, Event.persist m]) m) :
    BindingInstallsFrom fw v m f g := by
  obtain ⟨s, t, hst⟩ :=
    fieldGroups_of_mem fw (fw.persist (v.log ++ [Event.session m]) m v.formDelegates_) m f
      (fw.fields (v.log ++ [Event.session m, Event.persist m]) m)
      (v.log ++ [Event.session m, Event.persist m, Event.fields m]) hf
  have hcalls : ∀ pre : List Event,
      fieldCalls fw (fw.persist (v.log ++ [Event.session m]) m v.formDelegates_) m pre f
        = delegateCalls fw g m pre f := by
    intro pre
    simp [fieldCalls, hg]
  rw [hcalls] at hst
  refine ⟨_, [Event.session m, Event.persist m, Event.fields m] ++ s,
    t ++ [Event.updateView m], FormView.setFormModel_some fw v m, ?_, ?_, ?_, ?_⟩
  · rw [FormView.delegate_eq_find]
    exact hg
  · simp only [hst]
    simp [List.append_assoc]
  · intro p q w h
    simp only [List.append_assoc, List.append_cancel_left_eq] at h
    refine bindingLog_split fw _ m (Event.setFormWidget f w)
      (fun pre p => ∃ p0 : List Event,
        p = p0 ++ [Event.createFormWidget g w, Event.customizeFormWidget f w] ∧
        w = fw.createFormWidget (pre ++ p0) g)
      (fun pre f1 p q h => fieldCalls_widget fw _ m f g hg w pre f1 p q h)
      ?_ (by simp) (by simp) (by simp) (by simp) _ v.log p q (by simpa using h)
    rintro pre b p ⟨p0, hp, hw⟩
    exact ⟨b ++ p0, by simp [hp], by simpa [List.append_assoc] using hw⟩
  · intro p q val h
    simp only [List.append_assoc, List.append_cancel_left_eq] at h
    refine bindingLog_split fw _ m (Event.setValidator m f val)
      (fun pre p => ∃ p0 : List Event,
        p = p0 ++ [Event.createValidator g val, Event.customizeValidator f val] ∧
        val = fw.createValidator (pre ++ p0) g)
      (fun pre f1 p q h => fieldCalls_validator fw _ m f g hg val pre f1 p q h)
      ?_ (by simp) (by simp) (by simp) (by simp) _ v.log p q (by simpa using h)
    rintro pre b p ⟨p0, hp, hw⟩
    exact ⟨b ++ p0, by simp [hp], by simpa [List.append_assoc] using hw⟩

/-- The spec-modelled view action keeps every entry it finds. -/
theorem viewAction_keeps (generated : List (Field × WAbstractFormDelegate)) :
    ∀ (dm : DelegateMap) (k : Field) (d : WAbstractFormDelegate),
      dm k = some d → ViewAction.persist generated dm k = some d := by
  induction generated with
  | nil =>
    intro dm k d h
    simpa [ViewAction.persist] using h
  | cons p ps ih =>
    intro dm k d h
    unfold ViewAction.persist at ih ⊢
    rw [List.foldl_cons]
    apply ih
    cases hp : DelegateMap.find dm p.1 with
    | some d1 => simpa using h
    | none =>
      have hne : k ≠ p.1 := by
        intro hk
        rw [hk] at h
        unfold DelegateMap.find at hp
        rw [hp] at h
        cases h
      simp [DelegateMap.assign, hne, h]

theorem sampleFramework_keeps (valid handled : Bool) :
    PersistKeepsEntries (sampleFramework valid handled) := by
  intro log m dm k d h
  exact viewAction_keeps _ dm k d h

theorem erase_assign_of_absent (dm : DelegateMap) (f : Field) (d : WAbstractFormDelegate)
    (h : dm f = none) : (dm.assign f d).erase f = dm := by
  funext k
  unfold DelegateMap.erase DelegateMap.assign
  by_cases hk : k = f
  · simp [hk, h]
  · simp [hk]

/-! ## The properties of the specification -/

open FormView

/-- Claim C1: on every view on which `setFormModel` was called with a non-null
model, whatever calls of the interface followed, `setFormDelegate(field, delegate)`
throws the ordering exception for every field and every delegate argument, null
or not; the object after the throw is the object before it (same delegate map,
same bound model, no collaborator called), and it is bound. -/
theorem setFormDelegate_after_setFormModel_throws (fw : Framework) (v0 v : FormView)
    (m : FormModel) (ops : List Op)
    (hrun : run fw v0 (Op.setFormModel (some m) :: ops) = some v)
    (field : Field) (d : Option WAbstractFormDelegate) :
    v.setFormDelegate field d = Result.threw orderingMessage v ∧ v.bound = true := by
  have hb : v.bound = true := by
    simp only [run] at hrun
    cases hs : v0.step fw (Op.setFormModel (some m)) with
    | none => simp [hs] at hrun
    | some v1 =>
      simp only [hs] at hrun
      have heq := setFormModel_some fw v0 m
      simp only [step, heq, Result.view?, Option.some.injEq] at hs
      subst hs
      exact run_bound fw ops _ v (by rfl) hrun
  exact ⟨setFormDelegate_bound v hb field d, hb⟩

theorem setFormDelegate_after_setFormModel_throws_witness :
    run decliningDelegates sampleView [Op.setFormModel (some ⟨1⟩)] = some sampleAfterBinding ∧
    sampleAfterBinding.setFormDelegate "name" none =
      Result.threw orderingMessage sampleAfterBinding ∧
    sampleAfterBinding.bound = true :=
  ⟨rfl, setFormDelegate_after_setFormModel_throws decliningDelegates sampleView
    sampleAfterBinding ⟨1⟩ [] rfl "name" none⟩

/-- Claim C3: on an unbound view `setFormDelegate(f, d)` with a non-null `d`
returns without throwing; afterwards the delegate lookup for `f` gives `d`,
whether `f` had an entry or not, the lookup for every other field gives what it
gave before, and the view is still unbound. -/
theorem setFormDelegate_unbound_sets (v : FormView) (hv : v.bound = false) (f : Field)
    (d : WAbstractFormDelegate) :
    ∃ v1 : FormView,
      v.setFormDelegate f (some d) = Result.ok () v1 ∧
      v1.delegate f = some d ∧
      (∀ g : Field, g ≠ f → v1.delegate g = v.delegate g) ∧
      v1.bound = false := by
  have hnone : v.model_.isSome = false := hv
  refine ⟨{ v with formDelegates_ := v.formDelegates_.assign f d }, ?_, ?_, ?_, ?_⟩
  · simp [setFormDelegate, hnone]
  · simp [delegate_eq_find, DelegateMap.assign]
  · intro g hg
    simp [delegate_eq_find, DelegateMap.assign, hg]
  · exact hv

theorem setFormDelegate_unbound_sets_witness :
    sampleView.bound = false ∧
    ∃ v1 : FormView,
      sampleView.setFormDelegate "name" (some ⟨7⟩) = Result.ok () v1 ∧
      v1.delegate "name" = some ⟨7⟩ ∧
      (∀ g : Field, g ≠ "name" → v1.delegate g = sampleView.delegate g) ∧
      v1.bound = false :=
  ⟨rfl, setFormDelegate_unbound_sets sampleView rfl "name" ⟨7⟩⟩

/-- Claim C4: on an unbound view `setFormDelegate(f, null)` returns without
throwing and leaves no entry for `f`, every other entry as it was, and the
whole object as it was when `f` had no entry; when the view is bound next and
the auto-generation, finding no entry for `f`, makes the default delegate `g`
for the declared field `f`, what is installed for `f` is the widget and the
validator that `g` produces.  Hence on a view without an entry for `f`,
`setFormDelegate(f, d)` followed by `setFormDelegate(f, null)` gives back the
original object, delegate map included; a later `setFormModel` does exactly
what it does on a view where no override was ever set, and installs for `f`
the widget and the validator of the auto-generated default delegate. -/
theorem setFormDelegate_null_removes (fw : Framework) (v : FormView) (hv : v.bound = false)
    (f : Field) :
    (∃ v1 : FormView,
      v.setFormDelegate f none = Result.ok () v1 ∧
      v1.delegate f = none ∧
      (∀ g : Field, g ≠ f → v1.delegate g = v.delegate g) ∧
      v1.bound = false ∧
      (v.delegate f = none → v1 = v) ∧
      (∀ (m : FormModel) (g : WAbstractFormDelegate),
        fw.persist (v1.log ++ [Event.session m]) m v1.formDelegates_ f = some g →
        f ∈ fw.fields (v1.log ++ [Event.session m, Event.persist m]) m →
        BindingInstallsFrom fw v1 m f g)) ∧
    (v.delegate f = none →
      ∀ d : WAbstractFormDelegate,
        ∃ v1 v2 : FormView,
          v.setFormDelegate f (some d) = Result.ok () v1 ∧
          v1.setFormDelegate f none = Result.ok () v2 ∧
          v2.formDelegates_ = v.formDelegates_ ∧
          v2 = v ∧
          (∀ model : Option FormModel,
            v2.setFormModel fw model = v.setFormModel fw model) ∧
          (∀ (m : FormModel) (g : WAbstractFormDelegate),
            fw.persist (v.log ++ [Event.session m]) m v.formDelegates_ f = some g →
            f ∈ fw.fields (v.log ++ [Event.session m, Event.persist m]) m →
            BindingInstallsFrom fw v2 m f g)) := by
  have hnone : v.model_.isSome = false := hv
  constructor
  · cases hf : v.formDelegates_.find f with
    | none =>
      have hd : v.delegate f = none := by rw [delegate_eq_find]; exact hf
      refine ⟨v, ?_, hd, fun _ _ => rfl, hv, fun _ => rfl,
        fun m g hg hmem => binding_installs_from fw v m f g hg hmem⟩
      simp [setFormDelegate, hnone, hf]
    | some d0 =>
      have hd : v.delegate f = some d0 := by rw [delegate_eq_find]; exact hf
      refine ⟨{ v with formDelegates_ := v.formDelegates_.erase f }, ?_, ?_, ?_, hv, ?_,
        fun m g hg hmem => binding_installs_from fw _ m f g hg hmem⟩
      · simp [setFormDelegate, hnone, hf]
      · simp [delegate_eq_find, DelegateMap.erase]
      · intro g hg
        simp [delegate_eq_find, DelegateMap.erase, hg]
      · intro h
        rw [hd] at h
        cases h
  · intro hd d
    have hf : v.formDelegates_ f = none := by rw [← delegate_eq_find]; exact hd
    refine ⟨{ v with formDelegates_ := v.formDelegates_.assign f d }, v, ?_, ?_, rfl, rfl,
      fun _ => rfl, fun m g hg hmem => binding_installs_from fw v m f g hg hmem⟩
    · simp [setFormDelegate, hnone]
    · have hfind : DelegateMap.find (v.formDelegates_.assign f d) f = some d := by
        simp [DelegateMap.find, DelegateMap.assign]
      simp only [setFormDelegate, hnone, hfind]
      rw [erase_assign_of_absent v.formDelegates_ f d hf]
      rfl

theorem setFormDelegate_null_removes_witness :
    (sampleViewWithDelegate.bound = false ∧
      (sampleFramework true true).persist (sampleViewRemoved.log ++ [Event.session ⟨1⟩]) ⟨1⟩
        sampleViewRemoved.formDelegates_ "name" = some ⟨100⟩ ∧
      "name" ∈ (sampleFramework true true).fields
        (sampleViewRemoved.log ++ [Event.session ⟨1⟩, Event.persist ⟨1⟩]) ⟨1⟩ ∧
      sampleViewWithDelegate.setFormDelegate "name" none = Result.ok () sampleViewRemoved ∧
      BindingInstallsFrom (sampleFramework true true) sampleViewRemoved ⟨1⟩ "name" ⟨100⟩) ∧
    (sampleView.bound = false ∧ sampleView.delegate "name" = none ∧
      (sampleFramework true true).persist (sampleView.log ++ [Event.session ⟨1⟩]) ⟨1⟩
        sampleView.formDelegates_ "name" = some ⟨100⟩ ∧
      "name" ∈ (sampleFramework true true).fields
        (sampleView.log ++ [Event.session ⟨1⟩, Event.persist ⟨1⟩]) ⟨1⟩ ∧
      ∃ v1 v2 : FormView,
        sampleView.setFormDelegate "name" (some ⟨7⟩) = Result.ok () v1 ∧
        v1.setFormDelegate "name" none = Result.ok () v2 ∧
        v2.formDelegates_ = sampleView.formDelegates_ ∧
        v2 = sampleView ∧
        (∀ model : Option FormModel,
          v2.setFormModel (sampleFramework true true) model =
            sampleView.setFormModel (sampleFramework true true) model) ∧
        BindingInstallsFrom (sampleFramework true true) v2 ⟨1⟩ "name" ⟨100⟩) := by
  refine ⟨⟨rfl, rfl, by decide, rfl, ?_⟩, rfl, rfl, rfl, by decide, ?_⟩
  · obtain ⟨v1, h1, -, -, -, -, h6⟩ :=
      (setFormDelegate_null_removes (sampleFramework true true) sampleViewWithDelegate rfl
        "name").1
    have hv1 : v1 = sampleViewRemoved := by
      have h : Result.ok () sampleViewRemoved = Result.ok () v1 := h1
      cases h
      rfl
    subst hv1
    exact h6 ⟨1⟩ ⟨100⟩ rfl (by decide)
  · obtain ⟨v1, v2, h1, h2, h3, h4, h5, h6⟩ :=
      (setFormDelegate_null_removes (sampleFramework true true) sampleView rfl "name").2 rfl ⟨7⟩
    exact ⟨v1, v2, h1, h2, h3, h4, h5, h6 ⟨1⟩ ⟨100⟩ rfl (by decide)⟩

/-- Claim C5: on a bound view whose model validates after `updateModel`, `save()`
returns normally having called, in this order and nothing else, `updateModel`,
`validate` (true), `saveDboValues` once, `updateView`, and the emission of "saved"
once; "validation failed" is not emitted and the two members are unchanged. -/
theorem save_valid_persists_and_signals_saved (fw : Framework) (v : FormView) (m : FormModel)
    (hm : v.model_ = some m)
    (hvalid : fw.validate (v.log ++ [Event.updateModel m]) m = true) :
    v.save fw =
      Result.ok ()
        { v with log := v.log ++ [Event.updateModel m, Event.validate m true,
            Event.saveDboValues m, Event.updateView m, Event.savedEmit] } := by
  rw [save_bound fw v m hm, if_pos hvalid]

theorem save_valid_persists_and_signals_saved_witness :
    sampleBoundView.model_ = some ⟨1⟩ ∧
    (sampleFramework true true).validate (sampleBoundView.log ++ [Event.updateModel ⟨1⟩]) ⟨1⟩
      = true ∧
    sampleBoundView.save (sampleFramework true true) =
      Result.ok ()
        { sampleBoundView with log := sampleBoundView.log ++ [Event.updateModel ⟨1⟩,
            Event.validate ⟨1⟩ true, Event.saveDboValues ⟨1⟩, Event.updateView ⟨1⟩,
            Event.savedEmit] } :=
  ⟨rfl, rfl, save_valid_persists_and_signals_saved (sampleFramework true true) sampleBoundView
    ⟨1⟩ rfl rfl⟩

/-- Claim C6: on a bound view whose model fails validation after `updateModel`,
`save()` returns normally (no exception) having called, in this order and
nothing else, `updateModel`, `validate` (false), `updateView`, and the emission
of "validation failed" once; `saveDboValues` is not called and "saved" is not
emitted. -/
theorem save_invalid_signals_validationFailed (fw : Framework) (v : FormView) (m : FormModel)
    (hm : v.model_ = some m)
    (hinvalid : fw.validate (v.log ++ [Event.updateModel m]) m = false) :
    v.save fw =
      Result.ok ()
        { v with log := v.log ++ [Event.updateModel m, Event.validate m false,
            Event.updateView m, Event.validationFailedEmit] } := by
  rw [save_bound fw v m hm, if_neg (by simp [hinvalid])]

theorem save_invalid_signals_validationFailed_witness :
    sampleBoundView.model_ = some ⟨1⟩ ∧
    (sampleFramework false true).validate (sampleBoundView.log ++ [Event.updateModel ⟨1⟩]) ⟨1⟩
      = false ∧
    sampleBoundView.save (sampleFramework false true) =
      Result.ok ()
        { sampleBoundView with log := sampleBoundView.log ++ [Event.updateModel ⟨1⟩,
            Event.validate ⟨1⟩ false, Event.updateView ⟨1⟩, Event.validationFailedEmit] } :=
  ⟨rfl, rfl, save_invalid_signals_validationFailed (sampleFramework false true) sampleBoundView
    ⟨1⟩ rfl rfl⟩

/-- Claim C8: the binding state is a one-way state machine.  A fresh view is
unbound; `setFormModel` with a non-null model returns with the view bound; from
a bound view every sequence of calls of the interface that has a defined
behaviour ends in a bound view; and from a bound view no sequence of calls of
`setFormDelegate`, `save`, `updateModelValue` and `updateViewValue` changes the
delegate map. -/
theorem binding_state_one_way (fw : Framework) :
    (∀ text : String, (FormView.new text).bound = false) ∧
    (∀ (v : FormView) (m : FormModel),
      ∃ v1 : FormView, v.setFormModel fw (some m) = Result.ok () v1 ∧ v1.bound = true) ∧
    (∀ (v v1 : FormView) (ops : List Op),
      v.bound = true → run fw v ops = some v1 → v1.bound = true) ∧
    (∀ (v v1 : FormView) (ops : List Op),
      v.bound = true → (∀ op ∈ ops, op.isSetFormModel = false) → run fw v ops = some v1 →
        v1.formDelegates_ = v.formDelegates_) := by
  refine ⟨fun _ => rfl, ?_, ?_, ?_⟩
  · intro v m
    have heq := setFormModel_some fw v m
    exact ⟨_, heq, rfl⟩
  · intro v v1 ops hb h
    exact run_bound fw ops v v1 hb h
  · intro v v1 ops hb hops h
    exact run_formDelegates fw ops v v1 hb hops h

theorem binding_state_one_way_witness :
    sampleBoundView.bound = true ∧
    (∀ op ∈ sampleCalls, op.isSetFormModel = false) ∧
    run (sampleFramework true false) sampleBoundView sampleCalls = some sampleAfterCalls ∧
    sampleAfterCalls.bound = true ∧
    sampleAfterCalls.formDelegates_ = sampleBoundView.formDelegates_ :=
  ⟨rfl, by decide, rfl,
    (binding_state_one_way (sampleFramework true false)).2.2.1 sampleBoundView
      sampleAfterCalls sampleCalls rfl rfl,
    (binding_state_one_way (sampleFramework true false)).2.2.2 sampleBoundView
      sampleAfterCalls sampleCalls rfl (by decide) rfl⟩

/-- Claim C9: `setFormModel` with a non-null model returns normally, and after
`session`, `persist` and `fields` it makes one group of calls per field of the
model's field list, in the order of that list, the group at position `i` being
the one specified for the field at position `i` from the log left by the
groups before it: for a field with an entry `d` in the delegate map left by
the auto-generation, `d->createFormWidget()`, then `customizeFormWidget` on the
widget `d` returned, then `setFormWidget` with it, then `d->createValidator()`,
`customizeValidator` on the validator `d` returned, `setValidator` with it; for
a field without an entry, `setFormWidget` and `setValidator` with null and no
customisation hook.  The only `updateView` comes after all groups. -/
theorem setFormModel_installs_per_field (fw : Framework) (v : FormView) (m : FormModel) :
    ∃ (v1 : FormView) (groups : List (List Event)),
      v.setFormModel fw (some m) = Result.ok () v1 ∧
      v1.model_ = some m ∧
      v1.formDelegates_ = fw.persist (v.log ++ [Event.session m]) m v.formDelegates_ ∧
      groups = fieldGroups fw v1.formDelegates_ m
        (v.log ++ [Event.session m, Event.persist m, Event.fields m])
        (fw.fields (v.log ++ [Event.session m, Event.persist m]) m) ∧
      groups.length = (fw.fields (v.log ++ [Event.session m, Event.persist m]) m).length ∧
      (∀ (i : Nat) (f : Field),
        (fw.fields (v.log ++ [Event.session m, Event.persist m]) m)[i]? = some f →
        groups[i]? = some (fieldCalls fw v1.formDelegates_ m
          (v.log ++ [Event.session m, Event.persist m, Event.fields m]
            ++ (groups.take i).flatten) f)) ∧
      v1.log = v.log ++ [Event.session m, Event.persist m, Event.fields m]
        ++ groups.flatten ++ [Event.updateView m] ∧
      Event.updateView m ∉ groups.flatten := by
  refine ⟨_, _, setFormModel_some fw v m, rfl, rfl, rfl, ?_, ?_, rfl, ?_⟩
  · exact fieldGroups_length fw _ m _ _
  · intro i f hi
    exact fieldGroups_at fw _ m _ _ i f hi
  · exact fieldGroups_no_updateView fw _ m m _ _

theorem setFormModel_installs_per_field_witness :
    (sampleFramework true true).fields
      (sampleViewWithDelegate.log ++ [Event.session ⟨1⟩, Event.persist ⟨1⟩]) ⟨1⟩
      = ["name", "age"] ∧
    ∃ (v1 : FormView) (groups : List (List Event)),
      sampleViewWithDelegate.setFormModel (sampleFramework true true) (some ⟨1⟩)
        = Result.ok () v1 ∧
      v1.model_ = some ⟨1⟩ ∧
      v1.formDelegates_ = (sampleFramework true true).persist
        (sampleViewWithDelegate.log ++ [Event.session ⟨1⟩]) ⟨1⟩
        sampleViewWithDelegate.formDelegates_ ∧
      groups = fieldGroups (sampleFramework true true) v1.formDelegates_ ⟨1⟩
        (sampleViewWithDelegate.log ++ [Event.session ⟨1⟩, Event.persist ⟨1⟩,
          Event.fields ⟨1⟩])
        ["name", "age"] ∧
      groups.length = 2 ∧
      groups[0]? = some (fieldCalls (sampleFramework true true) v1.formDelegates_ ⟨1⟩
        (sampleViewWithDelegate.log ++ [Event.session ⟨1⟩, Event.persist ⟨1⟩,
          Event.fields ⟨1⟩] ++ (groups.take 0).flatten) "name") ∧
      groups[1]? = some (fieldCalls (sampleFramework true true) v1.formDelegates_ ⟨1⟩
        (sampleViewWithDelegate.log ++ [Event.session ⟨1⟩, Event.persist ⟨1⟩,
          Event.fields ⟨1⟩] ++ (groups.take 1).flatten) "age") ∧
      v1.log = sampleViewWithDelegate.log ++ [Event.session ⟨1⟩, Event.persist ⟨1⟩,
        Event.fields ⟨1⟩] ++ groups.flatten ++ [Event.updateView ⟨1⟩] ∧
      Event.updateView ⟨1⟩ ∉ groups.flatten := by
  obtain ⟨v1, groups, h1, h2, h3, h4, h5, h6, h7, h8⟩ :=
    setFormModel_installs_per_field (sampleFramework true true) sampleViewWithDelegate ⟨1⟩
  exact ⟨rfl, v1, groups, h1, h2, h3, h4, h5, h6 0 "name" rfl, h6 1 "age" rfl, h7, h8⟩

/-- Claim C2: when `setFormDelegate(f, d)` with a non-null `d` is called on an
unbound view and `setFormModel` is called next, with an auto-generation that
keeps the entries it finds and a model that declares `f`, then both calls
return normally, the delegate of `f` is still `d`, the log of `setFormModel`
contains in a row `d->createFormWidget()`, `customizeFormWidget` and
`setFormWidget(f, ...)` on the widget `d` returned there, then
`d->createValidator()`, `customizeValidator` and `setValidator(f, ...)` on the
validator `d` returned there, and every widget and every validator that this
`setFormModel` installs for `f` is the one `d` has just returned, not that of
another delegate. -/
theorem custom_delegate_used_at_binding (fw : Framework) (hpersist : PersistKeepsEntries fw)
    (v : FormView) (hv : v.bound = false) (f : Field) (d : WAbstractFormDelegate)
    (m : FormModel) (hf : f ∈ fw.fields (v.log ++ [Event.session m, Event.persist m]) m) :
    ∃ v1 : FormView,
      v.setFormDelegate f (some d) = Result.ok () v1 ∧
      v1.delegate f = some d ∧
      BindingInstallsFrom fw v1 m f d := by
  have hnone : v.model_.isSome = false := hv
  refine ⟨{ v with formDelegates_ := v.formDelegates_.assign f d }, ?_, ?_, ?_⟩
  · simp [setFormDelegate, hnone]
  · simp [delegate_eq_find, DelegateMap.assign]
  · exact binding_installs_from fw _ m f d
      (hpersist _ m _ f d (by simp [DelegateMap.assign])) hf

theorem custom_delegate_used_at_binding_witness :
    PersistKeepsEntries (sampleFramework true true) ∧
    sampleView.bound = false ∧
    "name" ∈ (sampleFramework true true).fields
      (sampleView.log ++ [Event.session ⟨1⟩, Event.persist ⟨1⟩]) ⟨1⟩ ∧
    ∃ v1 : FormView,
      sampleView.setFormDelegate "name" (some ⟨7⟩) = Result.ok () v1 ∧
      v1.delegate "name" = some ⟨7⟩ ∧
      BindingInstallsFrom (sampleFramework true true) v1 ⟨1⟩ "name" ⟨7⟩ :=
  ⟨sampleFramework_keeps true true, rfl, by decide,
    custom_delegate_used_at_binding (sampleFramework true true)
      (sampleFramework_keeps true true) sampleView rfl "name" ⟨7⟩ ⟨1⟩ (by decide)⟩

end Wt.Form.Dbo
